import Mathlib

/-!
Verification development for the completion core of the hcl-lang repository.

The repository sources under verification are:
* `context/context.go` — context helpers `WithActiveCount` / `ActiveCountFromContext`
  (embedded directly below);
* an unnamed decoder file defining the `Object` constraint dispatcher whose
  `CompletionAtPos` method is a stub returning `nil` (embedded directly);
* `decoder/candidates_test.go` — the tests of the decoder's `CompletionAtPos`.

The decoder itself (`CompletionAtPos` and the body walker) is not among the
source files — only its tests are — so it is modelled from the specification
(schema-directed traversal: position arithmetic, body walker, block resolver,
label completion, constraint dispatch, error taxonomy), and evaluated on the
concrete schemas, files and positions that appear in the tests.
-/

namespace HclLang

/-- Position: (byte offset, line, column); line/column 1-indexed, byte 0-indexed. -/
structure Pos where
  line : Nat
  column : Nat
  byte : Nat
  deriving DecidableEq, Repr

/-- Range: filename plus start/end positions, half-open at the end. -/
structure Range where
  filename : String
  startPos : Pos
  stopPos : Pos
  deriving DecidableEq, Repr

/-- Byte-level containment test: `start.byte ≤ pos.byte < end.byte`. -/
def containsB (r : Range) (p : Pos) : Bool :=
  r.startPos.byte ≤ p.byte && p.byte < r.stopPos.byte

/-- Case-sensitive lexicographic comparison of character lists by code point. -/
def charsLe : List Char → List Char → Bool
  | [], _ => true
  | _ :: _, [] => false
  | a :: as, b :: bs =>
      if a.toNat < b.toNat then true
      else if b.toNat < a.toNat then false
      else charsLe as bs

/-- Case-sensitive lexicographic order on strings, by character code point. -/
def strLe (a b : String) : Bool := charsLe a.data b.data

/-- Totality of the character-list comparison. -/
def charsLe_total : ∀ as bs : List Char, charsLe as bs = true ∨ charsLe bs as = true := by
  intro as
  induction as with
  | nil => intro bs; left; rfl
  | cons a as ih =>
    intro bs
    cases bs with
    | nil => right; rfl
    | cons b bs =>
      by_cases hab : a.toNat < b.toNat
      · left; simp [charsLe, hab]
      · by_cases hba : b.toNat < a.toNat
        · right; simp [charsLe, hba]
        · rcases ih bs with h | h
          · left; simp [charsLe, hab, hba, h]
          · right; simp [charsLe, hab, hba, h]

/-- Transitivity of the character-list comparison. -/
def charsLe_trans :
    ∀ as bs cs : List Char, charsLe as bs = true → charsLe bs cs = true →
      charsLe as cs = true := by
  intro as
  induction as with
  | nil => intro bs cs _ _; rfl
  | cons a as ih =>
    intro bs cs h1 h2
    cases bs with
    | nil => simp [charsLe] at h1
    | cons b bs =>
      cases cs with
      | nil => simp [charsLe] at h2
      | cons c cs =>
        by_cases hab : a.toNat < b.toNat <;> by_cases hba : b.toNat < a.toNat <;>
          by_cases hbc : b.toNat < c.toNat <;> by_cases hcb : c.toNat < b.toNat <;>
            simp [charsLe, hab, hba, hbc, hcb] at h1 h2 ⊢ <;>
              first
                | omega
                | (constructor <;> omega)
                | (intro hac; omega)
                | (intro hac hca; exact ih bs cs h1 h2)
                | exact Or.inr ⟨by omega, ih bs cs h1 h2⟩
                | skip

/-- Kinds of completion candidates (the ones the claims exercise). -/
inductive CandidateKind where
  | attribute
  | block
  | label
  deriving DecidableEq, Repr

/-- One text edit: range to replace, plain new text, and structured snippet. -/
structure TextEdit where
  range : Range
  newText : String
  snippet : String
  deriving DecidableEq, Repr

/-- One completion candidate offered to the editor. -/
structure Candidate where
  label : String
  detail : String
  textEdit : TextEdit
  kind : CandidateKind
  triggerSuggest : Bool
  deriving DecidableEq, Repr

/-- Candidates result: ordered list plus an `is_complete` flag. -/
structure Candidates where
  list : List Candidate
  isComplete : Bool
  deriving DecidableEq, Repr

/-- Ordering of candidates by label (case-sensitive, ascending). -/
def candidateLe (a b : Candidate) : Prop := strLe a.label b.label = true

instance : DecidableRel candidateLe :=
  fun a b => inferInstanceAs (Decidable (strLe a.label b.label = true))

instance : IsTotal Candidate candidateLe :=
  ⟨fun a b => charsLe_total a.label.data b.label.data⟩

instance : IsTrans Candidate candidateLe :=
  ⟨fun a b c h1 h2 => charsLe_trans a.label.data b.label.data c.label.data h1 h2⟩

/-- Sort a candidate list by label, ascending. -/
def sortCands (l : List Candidate) : List Candidate := List.insertionSort candidateLe l

/-- Modelled from the spec: CL types as far as the claims exercise them
(string, number, bool, dynamic pseudo type, set/map collections). -/
inductive CTy where
  | str
  | num
  | bool
  | dynamic
  | set (t : CTy)
  | map (t : CTy)
  deriving DecidableEq, Repr

/-- Modelled from the spec: the constraint variants exercised by the claims
(`LiteralType(T)`); the missing decoder dispatches on these. -/
inductive Constraint where
  | literalType (t : CTy)
  deriving DecidableEq, Repr

/-- Attribute schema: flags plus the constraint for the expression shape. -/
structure AttributeSchema where
  constraint : Constraint
  isRequired : Bool
  isOptional : Bool
  isSensitive : Bool
  isDeprecated : Bool
  deriving DecidableEq, Repr

/-- Label schema: name, dependency-key participation, value completability. -/
structure LabelSchema where
  name : String
  isDepKey : Bool
  completable : Bool
  deriving DecidableEq, Repr

/-- One (label index, required value) condition of a dependency key. -/
structure LabelDependent where
  index : Nat
  value : String
  deriving DecidableEq, Repr

/-- One (attribute name, required value) condition of a dependency key;
the required expression value is kept as its structural address encoding. -/
structure AttributeDependent where
  name : String
  addr : String
  deriving DecidableEq, Repr

/-- Dependency key: label conditions plus attribute conditions. -/
structure DependencyKeys where
  labels : List LabelDependent
  attributes : List AttributeDependent
  deriving DecidableEq, Repr

mutual

/-- Body schema: named attributes and nested block types. -/
inductive BodySchema where
  | mk (attributes : List (String × AttributeSchema))
       (blocks : List (String × BlockSchema))

/-- Block schema: ordered labels, optional static body, dependent bodies. -/
inductive BlockSchema where
  | mk (labels : List LabelSchema)
       (body : Option BodySchema)
       (dependentBody : List (DependencyKeys × BodySchema))

end

def BodySchema.attributes : BodySchema → List (String × AttributeSchema)
  | .mk a _ => a

def BodySchema.blocks : BodySchema → List (String × BlockSchema)
  | .mk _ b => b

def BlockSchema.labels : BlockSchema → List LabelSchema
  | .mk l _ _ => l

def BlockSchema.body : BlockSchema → Option BodySchema
  | .mk _ b _ => b

def BlockSchema.dependentBody : BlockSchema → List (DependencyKeys × BodySchema)
  | .mk _ _ d => d

/-- Parsed attribute: `name = expression`, with the ranges the walker tests
and the structural value encoding used for dependency matching. -/
structure Attr where
  name : String
  range : Range
  nameRange : Range
  exprRange : Range
  exprAddr : Option String
  deriving DecidableEq, Repr

/-- Parsed block label literal: value, quoted range, and the content range
between the quotes (the range a label candidate's edit replaces). -/
structure LabelInst where
  value : String
  range : Range
  contentRange : Range
  deriving DecidableEq, Repr

/-- Parsed block header: type, label literals, brace bytes and full range. -/
structure BlockHead where
  type_ : String
  typeRange : Range
  labels : List LabelInst
  openBraceByte : Nat
  closeBraceByte : Nat
  range : Range
  deriving DecidableEq, Repr

/-- Parsed body: attributes and nested blocks (header paired with inner body). -/
inductive Body where
  | mk (attributes : List Attr) (blocks : List (BlockHead × Body)) (range : Range)

def Body.attributes : Body → List Attr
  | .mk a _ _ => a

def Body.blocks : Body → List (BlockHead × Body)
  | .mk _ b _ => b

mutual

/-- Block-nesting depth of a parsed body (used to bound the walker's descent). -/
def Body.depth : Body → Nat
  | .mk _ blocks _ => 1 + blocksDepth blocks

/-- Greatest nesting depth among a list of nested blocks. -/
def blocksDepth : List (BlockHead × Body) → Nat
  | [] => 0
  | (_, b) :: rest => max (Body.depth b) (blocksDepth rest)

end

/-- Parsed file: either a native-dialect body with its source characters, the
sentinel empty body, or a body in a foreign (e.g. JSON) dialect. -/
inductive File where
  | native (src : List Char) (body : Body)
  | emptyBody
  | foreign

/-- Error taxonomy of `completion_at`, as returned to the caller. -/
inductive CompletionError where
  | noSchema
  | unknownFileFormat
  | positional (msg : String)
  | unknownBlockType (msg : String)
  deriving DecidableEq, Repr

/-- Errors the body walker itself can raise — by construction it can never
produce a file-format or no-schema error. -/
inductive WalkError where
  | positional (msg : String)
  | unknownBlockType (msg : String)
  deriving DecidableEq, Repr

def WalkError.toCompletionError : WalkError → CompletionError
  | .positional m => .positional m
  | .unknownBlockType m => .unknownBlockType m

/-- Human name of a CL type, as used in candidate detail strings. -/
def typeName : CTy → String
  | .str => "string"
  | .num => "number"
  | .bool => "bool"
  | .dynamic => "any type"
  | .set t => "set of " ++ typeName t
  | .map t => "map of " ++ typeName t

/-- Detail-string composition: comma-separated hints in the order
`required | optional`, then `sensitive`, then `deprecated`, then the type name. -/
def detailString (a : AttributeSchema) : String :=
  let hints :=
    (if a.isRequired then ["required"] else if a.isOptional then ["optional"] else [])
      ++ (if a.isSensitive then ["sensitive"] else [])
      ++ (if a.isDeprecated then ["deprecated"] else [])
  String.intercalate ", " (hints ++ [typeName (match a.constraint with | .literalType t => t)])

/-- Snippet body for an attribute's right-hand side, by constraint type. -/
def snippetForType : CTy → String
  | .str => "\"$\x7b1:value\x7d\""
  | .num => "$\x7b1:0\x7d"
  | .bool => "$\x7b1:false\x7d"
  | .dynamic => "$\x7b1\x7d"
  | .set _ => "[ $\x7b1\x7d ]"
  | .map _ => "\x7b\n  \"$\x7b1:key\x7d\" = $\x7b2\x7d\n\x7d"

/-- Candidate for inserting a not-yet-present attribute. -/
def attrCandidate (name : String) (a : AttributeSchema) (editRange : Range) : Candidate :=
  { label := name
    detail := detailString a
    textEdit :=
      { range := editRange
        newText := name
        snippet := name ++ " = " ++ snippetForType (match a.constraint with | .literalType t => t) }
    kind := .attribute
    triggerSuggest := false }

/-- Header-snippet label placeholders, numbered from `i`: a completable
dependency-key label becomes an empty placeholder, others a named one. -/
def labelPlaceholders : Nat → List LabelSchema → String
  | _, [] => ""
  | i, l :: ls =>
      " \"$\x7b" ++ toString i ++ (if l.completable && l.isDepKey then "" else ":" ++ l.name)
        ++ "\x7d\"" ++ labelPlaceholders (i + 1) ls

/-- Candidate for inserting a new block of the given type. -/
def blockCandidate (type_ : String) (bs : BlockSchema) (editRange : Range) : Candidate :=
  { label := type_
    detail := "Block"
    textEdit :=
      { range := editRange
        newText := type_
        snippet := type_ ++ labelPlaceholders 1 bs.labels ++ " \x7b\n  $\x7b"
          ++ toString (bs.labels.length + 1) ++ "\x7d\n\x7d" }
    kind := .block
    triggerSuggest := bs.labels.any (fun l => l.completable && l.isDepKey) }

/-- Candidate for a dependency-key label value. -/
def labelCandidate (v : String) (editRange : Range) : Candidate :=
  { label := v
    detail := ""
    textEdit := { range := editRange, newText := v, snippet := v }
    kind := .label
    triggerSuggest := false }

/-- Identifier characters of CL, for typed-prefix recovery. -/
def isIdentChar (c : Char) : Bool := c.isAlphanum || c = '_' || c = '-'

/-- Length of the identifier prefix immediately before the given byte offset. -/
def identPrefixLen (src : List Char) (byte : Nat) : Nat :=
  ((src.take byte).reverse.takeWhile isIdentChar).length

/-- Edit range for a new attribute/block candidate: from the start of the
typed identifier prefix (if any) to the cursor. -/
def editRangeAt (fname : String) (src : List Char) (pos : Pos) : Range :=
  let n := identPrefixLen src pos.byte
  { filename := fname
    startPos := { line := pos.line, column := pos.column - n, byte := pos.byte - n }
    stopPos := pos }

/-- Association-list lookup by name. -/
def lookupStr {α : Type} (xs : List (String × α)) (k : String) : Option α :=
  (xs.find? (fun p => p.1 == k)).map (fun p => p.2)

/-- A block matches a dependency key when every label condition equals the
block's label at that index and every attribute condition is present with a
structurally equal expression; absence disqualifies. -/
def keyMatches (k : DependencyKeys) (labels : List LabelInst) (body : Body) : Bool :=
  k.labels.all (fun ld =>
      match labels[ld.index]? with
      | some li => li.value == ld.value
      | none => false)
    && k.attributes.all (fun ad =>
      body.attributes.any (fun a => a.name == ad.name && a.exprAddr == some ad.addr))

/-- Number of conditions of a dependency key (its specificity). -/
def condCount (k : DependencyKeys) : Nat := k.labels.length + k.attributes.length

/-- Most specific key among the matching ones; ties broken deterministically
by keeping the earliest in the canonical key ordering. -/
def pickBest : List (DependencyKeys × BodySchema) → Option (DependencyKeys × BodySchema)
  | [] => none
  | p :: rest =>
    match pickBest rest with
    | none => some p
    | some q => if condCount p.1 < condCount q.1 then some q else some p

/-- Merge a dependent body schema into the static one; on a name clash the
dependent schema wins. -/
def mergeBodySchema (base dep : BodySchema) : BodySchema :=
  .mk ((base.attributes.filter (fun p => !(dep.attributes.any (fun q => q.1 == p.1))))
        ++ dep.attributes)
      ((base.blocks.filter (fun p => !(dep.blocks.any (fun q => q.1 == p.1))))
        ++ dep.blocks)

/-- Effective body of a block: static body merged with the dependent body of
the best-matching dependency key; just the static body when no key matches. -/
def effectiveBodySchema (bs : BlockSchema) (labels : List LabelInst) (body : Body) : BodySchema :=
  let base := bs.body.getD (BodySchema.mk [] [])
  match pickBest (bs.dependentBody.filter (fun p => keyMatches p.1 labels body)) with
  | none => base
  | some (_, dep) => mergeBodySchema base dep

/-- Dependency-key values for a given label index, across all keys of a
block's dependent-body map. -/
def labelValuesAt (i : Nat) (deps : List (DependencyKeys × BodySchema)) : List String :=
  deps.filterMap (fun p => ((p.1).labels.find? (fun ld => ld.index == i)).map (fun ld => ld.value))

/-- Label value completion: for a completable dependency-key label, the
distinct key values at that index; otherwise an empty complete list. -/
def labelCompletionCands (i : Nat) (ls : LabelSchema) (li : LabelInst) (bs : BlockSchema) :
    Candidates :=
  if ls.completable && ls.isDepKey then
    ⟨((labelValuesAt i bs.dependentBody).dedup).map (fun v => labelCandidate v li.contentRange),
      true⟩
  else ⟨[], true⟩

/-- Innermost label (with its index and schema) covering the position. -/
def findLabelAt (pos : Pos) : Nat → List LabelInst → List LabelSchema →
    Option (Nat × LabelInst × LabelSchema)
  | _, [], _ => none
  | _, _ :: _, [] => none
  | i, li :: lis, ls :: lss =>
    if containsB li.range pos then some (i, li, ls) else findLabelAt pos (i + 1) lis lss

/-- New-attribute-or-block candidates of a body: every schema attribute whose
name is not already present, plus a candidate for every block type. -/
def newBodyCands (schema : BodySchema) (present : List String) (editRange : Range) :
    List Candidate :=
  ((schema.attributes.filter (fun p => !(present.contains p.1))).map
      (fun p => attrCandidate p.1 p.2 editRange))
    ++ schema.blocks.map (fun p => blockCandidate p.1 p.2 editRange)

/-- Constraint dispatch for a position inside an attribute's expression: a
scalar-literal constraint admits nothing (a zero-length complete list). -/
def exprCompletionCands (schema : BodySchema) (a : Attr) : Candidates :=
  match lookupStr schema.attributes a.name with
  | some attrS =>
    match attrS.constraint with
    | .literalType _ => ⟨[], true⟩
  | none => ⟨[], true⟩

/-- Modelled from the spec: the body walker of the missing decoder. Given a
body schema and a parsed body, it descends into the block containing the
position (resolving the effective body through the dependency keys), handles
block-header and label positions, dispatches positions inside an attribute's
expression to the constraint, and otherwise produces new-attribute-or-block
candidates. The fuel argument only bounds block-nesting depth. -/
def bodyCompletion (fname : String) (src : List Char) :
    Nat → BodySchema → Pos → Body → Except WalkError Candidates
  | 0, _, _, _ => .error (.positional "block nesting too deep")
  | fuel + 1, schema, pos, body =>
    match (Body.blocks body).find? (fun p => containsB p.1.range pos) with
    | some (h, inner) =>
      match lookupStr schema.blocks h.type_ with
      | none => .error (.unknownBlockType ("unknown block type \"" ++ h.type_ ++ "\""))
      | some bs =>
        if containsB h.typeRange pos then
          .ok ⟨newBodyCands (BodySchema.mk [] schema.blocks) [] h.range, true⟩
        else
          match findLabelAt pos 0 h.labels bs.labels with
          | some (i, li, ls) => .ok (labelCompletionCands i ls li bs)
          | none =>
            if h.openBraceByte < pos.byte && pos.byte < h.closeBraceByte then
              bodyCompletion fname src fuel (effectiveBodySchema bs h.labels inner) pos inner
            else
              .error (.positional ("position outside of \"" ++ h.type_ ++ "\" body"))
    | none =>
      match (Body.attributes body).find? (fun a => containsB a.range pos) with
      | some a =>
        if containsB a.exprRange pos then .ok (exprCompletionCands schema a)
        else .ok ⟨newBodyCands schema ((Body.attributes body).map Attr.name) a.range, true⟩
      | none =>
        .ok ⟨newBodyCands schema ((Body.attributes body).map Attr.name)
              (editRangeAt fname src pos), true⟩

/-- Modelled from the spec: the public `completion_at` façade of the missing
decoder. It refuses non-native and sentinel empty bodies with
`UnknownFileFormatError`, refuses a missing root schema with `NoSchemaError`,
and otherwise runs the body walker, returning its candidates sorted by label. -/
def completion_at (rootSchema : Option BodySchema) (fname : String) (file : File) (pos : Pos) :
    Except CompletionError Candidates :=
  match file with
  | .emptyBody => .error .unknownFileFormat
  | .foreign => .error .unknownFileFormat
  | .native src body =>
    match rootSchema with
    | none => .error .noSchema
    | some schema =>
      match bodyCompletion fname src (Body.depth body) schema pos body with
      | .ok c => .ok ⟨sortCands c.list, c.isComplete⟩
      | .error e => .error e.toCompletionError

/-- Attribute schema with a literal-type constraint and required/optional flags. -/
def litAttr (t : CTy) (req opt : Bool) : AttributeSchema :=
  ⟨.literalType t, req, opt, false, false⟩

/-! Scenario C1: the dependent-body selection scenario — schema with a
`resource` block whose label 0 is a dependency key, dependent bodies keyed on
`azurerm_subnet` and `random_resource`, and the file
`resource "azurerm_subnet" "example" {\n  count = 3\n}\n`. -/

def tf : String := "test.tf"

def schemaC1 : BodySchema :=
  .mk [] [("resource", .mk
    [⟨"type", true, true⟩, ⟨"name", false, false⟩]
    (some (.mk [("count", litAttr .num false false)] []))
    [(⟨[⟨0, "azurerm_subnet"⟩], []⟩,
        .mk [("one", litAttr .str true false), ("two", litAttr .num false true),
             ("three", litAttr .bool false true)] []),
     (⟨[⟨0, "random_resource"⟩], []⟩,
        .mk [("four", litAttr .num false false), ("five", litAttr .dynamic false false)] [])])]

def srcC1 : List Char :=
  "resource \"azurerm_subnet\" \"example\" \x7b\n  count = 3\n\x7d\n".data

def countAttrC1 : Attr :=
  { name := "count"
    range := ⟨tf, ⟨2, 3, 40⟩, ⟨2, 12, 49⟩⟩
    nameRange := ⟨tf, ⟨2, 3, 40⟩, ⟨2, 8, 45⟩⟩
    exprRange := ⟨tf, ⟨2, 11, 48⟩, ⟨2, 12, 49⟩⟩
    exprAddr := none }

def blockHeadC1 : BlockHead :=
  { type_ := "resource"
    typeRange := ⟨tf, ⟨1, 1, 0⟩, ⟨1, 9, 8⟩⟩
    labels :=
      [⟨"azurerm_subnet", ⟨tf, ⟨1, 10, 9⟩, ⟨1, 26, 25⟩⟩, ⟨tf, ⟨1, 11, 10⟩, ⟨1, 25, 24⟩⟩⟩,
       ⟨"example", ⟨tf, ⟨1, 27, 26⟩, ⟨1, 36, 35⟩⟩, ⟨tf, ⟨1, 28, 27⟩, ⟨1, 35, 34⟩⟩⟩]
    openBraceByte := 36
    closeBraceByte := 50
    range := ⟨tf, ⟨1, 1, 0⟩, ⟨3, 2, 51⟩⟩ }

def fileC1 : File :=
  .native srcC1 (.mk []
    [(blockHeadC1, .mk [countAttrC1] [] ⟨tf, ⟨1, 37, 36⟩, ⟨3, 2, 51⟩⟩)]
    ⟨tf, ⟨1, 1, 0⟩, ⟨4, 1, 52⟩⟩)

/-- Zero-width edit range at the beginning of line 2 of the C1 file. -/
def editC1 : Range := ⟨tf, ⟨2, 1, 38⟩, ⟨2, 1, 38⟩⟩

def candC1one : Candidate :=
  ⟨"one", "required, string", ⟨editC1, "one", "one = \"$\x7b1:value\x7d\""⟩, .attribute, false⟩

def candC1three : Candidate :=
  ⟨"three", "optional, bool", ⟨editC1, "three", "three = $\x7b1:false\x7d"⟩, .attribute, false⟩

def candC1two : Candidate :=
  ⟨"two", "optional, number", ⟨editC1, "two", "two = $\x7b1:0\x7d"⟩, .attribute, false⟩

/-! Scenario C5: schema with `myblock {type}` and the file
`myblock "foo" {\n\n}\n`; positions on the braces or in the header
whitespace around them are refused with a positional error. -/

def schemaC5 : BodySchema :=
  .mk [] [("myblock", .mk
    [⟨"type", false, false⟩]
    (some (.mk [("num_attr", litAttr .num false false)] []))
    [])]

def srcC5 : List Char := "myblock \"foo\" \x7b\n\n\x7d\n".data

def fileC5 : File :=
  .native srcC5 (.mk []
    [({ type_ := "myblock"
        typeRange := ⟨tf, ⟨1, 1, 0⟩, ⟨1, 8, 7⟩⟩
        labels := [⟨"foo", ⟨tf, ⟨1, 9, 8⟩, ⟨1, 14, 13⟩⟩, ⟨tf, ⟨1, 10, 9⟩, ⟨1, 13, 12⟩⟩⟩]
        openBraceByte := 14
        closeBraceByte := 17
        range := ⟨tf, ⟨1, 1, 0⟩, ⟨3, 2, 18⟩⟩ },
      .mk [] [] ⟨tf, ⟨1, 15, 14⟩, ⟨3, 2, 18⟩⟩)]
    ⟨tf, ⟨1, 1, 0⟩, ⟨4, 1, 19⟩⟩)

/-! Scenario C7: schema knowing only the block type `resource`; the file's
whole content is the 3-byte prefix `res` with no trailing newline. -/

def schemaC7 : BodySchema :=
  .mk [] [("resource", .mk
    [⟨"type", false, false⟩, ⟨"name", false, false⟩]
    (some (.mk [("count", litAttr .num false false)] []))
    [])]

def fileC7 : File :=
  .native "res".data (.mk [] [] ⟨tf, ⟨1, 1, 0⟩, ⟨1, 4, 3⟩⟩)

/-! Scenario C8: schema with `myblock` holding a number attribute and a
string attribute; completion on the scalar right-hand sides. -/

def schemaC8 : BodySchema :=
  .mk [] [("myblock", .mk
    [⟨"type", false, false⟩]
    (some (.mk [("num_attr", litAttr .num false false),
                ("str_attr", litAttr .str false false)] []))
    [])]

def srcC8a : List Char := "myblock \"foo\" \x7b\n  num_attr = \n\x7d\n".data

def fileC8a : File :=
  .native srcC8a (.mk []
    [({ type_ := "myblock"
        typeRange := ⟨tf, ⟨1, 1, 0⟩, ⟨1, 8, 7⟩⟩
        labels := [⟨"foo", ⟨tf, ⟨1, 9, 8⟩, ⟨1, 14, 13⟩⟩, ⟨tf, ⟨1, 10, 9⟩, ⟨1, 13, 12⟩⟩⟩]
        openBraceByte := 14
        closeBraceByte := 30
        range := ⟨tf, ⟨1, 1, 0⟩, ⟨3, 2, 31⟩⟩ },
      .mk [{ name := "num_attr"
             range := ⟨tf, ⟨2, 3, 18⟩, ⟨2, 14, 29⟩⟩
             nameRange := ⟨tf, ⟨2, 3, 18⟩, ⟨2, 11, 26⟩⟩
             exprRange := ⟨tf, ⟨2, 13, 28⟩, ⟨2, 14, 29⟩⟩
             exprAddr := none }] [] ⟨tf, ⟨1, 15, 14⟩, ⟨3, 2, 31⟩⟩)]
    ⟨tf, ⟨1, 1, 0⟩, ⟨4, 1, 32⟩⟩)

def srcC8b : List Char := "myblock \"foo\" \x7b\n  str_attr = \"\"\n\x7d\n".data

def fileC8b : File :=
  .native srcC8b (.mk []
    [({ type_ := "myblock"
        typeRange := ⟨tf, ⟨1, 1, 0⟩, ⟨1, 8, 7⟩⟩
        labels := [⟨"foo", ⟨tf, ⟨1, 9, 8⟩, ⟨1, 14, 13⟩⟩, ⟨tf, ⟨1, 10, 9⟩, ⟨1, 13, 12⟩⟩⟩]
        openBraceByte := 14
        closeBraceByte := 32
        range := ⟨tf, ⟨1, 1, 0⟩, ⟨3, 2, 33⟩⟩ },
      .mk [{ name := "str_attr"
             range := ⟨tf, ⟨2, 3, 18⟩, ⟨2, 16, 31⟩⟩
             nameRange := ⟨tf, ⟨2, 3, 18⟩, ⟨2, 11, 26⟩⟩
             exprRange := ⟨tf, ⟨2, 14, 29⟩, ⟨2, 16, 31⟩⟩
             exprAddr := none }] [] ⟨tf, ⟨1, 15, 14⟩, ⟨3, 2, 33⟩⟩)]
    ⟨tf, ⟨1, 1, 0⟩, ⟨4, 1, 34⟩⟩)

/-! Scenario C3: schema with a `myblock` whose single label has configurable
`is_dep_key` / `completable` flags, no static body, and an arbitrary
dependent-body map; the file is `myblock "" {\n}\n` with the cursor inside
the (empty) label literal. -/

def schemaC3 (completable isDepKey : Bool) (deps : List (DependencyKeys × BodySchema)) :
    BodySchema :=
  .mk [] [("myblock", .mk [⟨"type", isDepKey, completable⟩] none deps)]

def srcC3 : List Char := "myblock \"\" \x7b\n\x7d\n".data

def fileC3 : File :=
  .native srcC3 (.mk []
    [({ type_ := "myblock"
        typeRange := ⟨tf, ⟨1, 1, 0⟩, ⟨1, 8, 7⟩⟩
        labels := [⟨"", ⟨tf, ⟨1, 9, 8⟩, ⟨1, 11, 10⟩⟩, ⟨tf, ⟨1, 10, 9⟩, ⟨1, 10, 9⟩⟩⟩]
        openBraceByte := 11
        closeBraceByte := 13
        range := ⟨tf, ⟨1, 1, 0⟩, ⟨2, 2, 14⟩⟩ },
      .mk [] [] ⟨tf, ⟨1, 12, 11⟩, ⟨2, 2, 14⟩⟩)]
    ⟨tf, ⟨1, 1, 0⟩, ⟨3, 1, 15⟩⟩)

/-- The dependent-body map of the non-completable-label test: two dependency
keys on label 0, values `myfirst` and `mysecond`, with empty bodies. -/
def depsC3 : List (DependencyKeys × BodySchema) :=
  [(⟨[⟨0, "myfirst"⟩], []⟩, .mk [] []), (⟨[⟨0, "mysecond"⟩], []⟩, .mk [] [])]

/-! Scenario C4: the duplicate-dependency-key scenario — a `resource` block
whose first label is a completable dependency key, and a file
`resource "" "" {\n}\n` with the cursor inside the first (empty) label. -/

def schemaC4 (deps : List (DependencyKeys × BodySchema)) : BodySchema :=
  .mk [] [("resource", .mk
    [⟨"type", true, true⟩, ⟨"name", false, false⟩]
    (some (.mk [("count", litAttr .num false false)] []))
    deps)]

def azBodyC4 : BodySchema :=
  .mk [("one", litAttr .str true false), ("two", litAttr .num false false),
       ("three", litAttr .bool false false)] []

/-- Two dependency keys sharing the label value `azurerm_subnet`, differing
only in an attribute condition on `provider`. -/
def depsC4 : List (DependencyKeys × BodySchema) :=
  [(⟨[⟨0, "azurerm_subnet"⟩], []⟩, azBodyC4),
   (⟨[⟨0, "azurerm_subnet"⟩], [⟨"provider", "azurerm"⟩]⟩, azBodyC4)]

def srcC4 : List Char := "resource \"\" \"\" \x7b\n\x7d\n".data

def fileC4 : File :=
  .native srcC4 (.mk []
    [({ type_ := "resource"
        typeRange := ⟨tf, ⟨1, 1, 0⟩, ⟨1, 9, 8⟩⟩
        labels :=
          [⟨"", ⟨tf, ⟨1, 10, 9⟩, ⟨1, 12, 11⟩⟩, ⟨tf, ⟨1, 11, 10⟩, ⟨1, 11, 10⟩⟩⟩,
           ⟨"", ⟨tf, ⟨1, 13, 12⟩, ⟨1, 15, 14⟩⟩, ⟨tf, ⟨1, 14, 13⟩, ⟨1, 14, 13⟩⟩⟩]
        openBraceByte := 15
        closeBraceByte := 17
        range := ⟨tf, ⟨1, 1, 0⟩, ⟨2, 2, 18⟩⟩ },
      .mk [] [] ⟨tf, ⟨1, 16, 15⟩, ⟨2, 2, 18⟩⟩)]
    ⟨tf, ⟨1, 1, 0⟩, ⟨3, 1, 19⟩⟩)

/-- The single deduplicated label candidate expected in scenario C4. -/
def azCandC4 : Candidate :=
  ⟨"azurerm_subnet", "",
    ⟨⟨tf, ⟨1, 11, 10⟩, ⟨1, 11, 10⟩⟩, "azurerm_subnet", "azurerm_subnet"⟩, .label, false⟩

/-! Embedding of the unnamed decoder source file: the `Object` constraint
dispatcher. Its `CompletionAtPos` method body is a stub that returns `nil`. -/

/-- Context keys defined in context/context.go (plus arbitrary foreign keys). -/
inductive CtxKey where
  | bodyExtCtxKey
  | bodyActiveCountCtxKey
  | other (n : Nat)
  deriving DecidableEq, Repr

/-- Values storable in a context. -/
inductive CtxValue where
  | boolV (b : Bool)
  | natV (n : Nat)
  deriving DecidableEq, Repr

/-- Go context modelled as the chain of `WithValue` bindings, most recent
first; `Value` returns the most recent binding for a key, or nothing. -/
def GoContext : Type := List (CtxKey × CtxValue)

/-- Lookup of a context key, most recent binding first (Go `ctx.Value`). -/
def contextValue : GoContext → CtxKey → Option CtxValue
  | [], _ => none
  | (k, v) :: rest, key => if k = key then some v else contextValue rest key

/-- The empty background context (Go `context.Background()`). -/
def contextBackground : GoContext := []

/-- Embedded from context/context.go: `WithActiveCount` stores `true` under
the `bodyActiveCountCtxKey` key. -/
def WithActiveCount (ctx : GoContext) : GoContext :=
  (CtxKey.bodyActiveCountCtxKey, CtxValue.boolV true) :: ctx

/-- Embedded from context/context.go: `ActiveCountFromContext` reports
whether the `bodyActiveCountCtxKey` key holds any (non-nil) value. -/
def ActiveCountFromContext (ctx : GoContext) : Bool :=
  (contextValue ctx CtxKey.bodyActiveCountCtxKey).isSome

/-- Parsed object-literal expression, as far as the Object dispatcher's
contract needs it: its range and the attributes already present in it. -/
structure ObjectExpr where
  range : Range
  presentAttrs : List (String × Range)
  deriving DecidableEq, Repr

/-- The `Object` constraint value: a fixed attribute shape. -/
structure SchemaObject where
  attributes : List (String × AttributeSchema)
  deriving DecidableEq, Repr

/-- Embedded from the unnamed decoder source: the `Object` constraint
dispatcher bundling the expression under the cursor and its constraint. -/
structure Object where
  expr : ObjectExpr
  cons : SchemaObject

/-- Embedded from the unnamed decoder source: `Object.CompletionAtPos` is a
stub (`// TODO`) that returns `nil` for every position. -/
def Object.CompletionAtPos (_obj : Object) (_ctx : GoContext) (_pos : Pos) : List Candidate :=
  []

/-- String ordering as a relation, for sorting name lists. -/
def stringLe (a b : String) : Prop := strLe a b = true

instance : DecidableRel stringLe :=
  fun a b => inferInstanceAs (Decidable (strLe a b = true))

/-- Modelled from the spec: the `Object{attrs}` candidates-at contract — if
the position is inside the object but not inside any present attribute, the
missing attribute names are offered sorted alphabetically. This models the
behavior the stub `Object.CompletionAtPos` leaves unimplemented. -/
def objectSpecMissingNames (obj : Object) (pos : Pos) : List String :=
  if containsB obj.expr.range pos
      && !(obj.expr.presentAttrs.any (fun p => containsB p.2 pos)) then
    List.insertionSort stringLe
      ((obj.cons.attributes.map (fun p => p.1)).filter
        (fun n => !(obj.expr.presentAttrs.any (fun q => q.1 == n))))
  else []

/-- Concrete Object-dispatcher input: constraint `Object{a: string}` over an
empty object literal spanning bytes 7–12, with the cursor at byte 9 inside
the braces and no attribute present. -/
def objC2 : Object :=
  { expr := { range := ⟨tf, ⟨1, 8, 7⟩, ⟨3, 2, 12⟩⟩, presentAttrs := [] }
    cons := { attributes := [("a", litAttr .str true false)] } }

/-! Theorems settling the claims. -/

/-- C1: for the root schema whose `resource` block has label 0 as a
dependency key and dependent bodies keyed on `azurerm_subnet` and
`random_resource`, completion at the beginning of line 2, strictly inside
the body of the block `resource "azurerm_subnet" "example"`, returns
candidates for exactly the `azurerm_subnet` dependent body's not-yet-present
attributes — labels `one`, `three`, `two` in that alphabetical order, with
detail strings `required, string`, `optional, bool`, `optional, number` —
and no candidate from any other dependent body. -/
theorem C1_dependent_body_completion :
    completion_at (some schemaC1) tf fileC1 ⟨2, 1, 38⟩ =
      .ok ⟨[candC1one, candC1three, candC1two], true⟩ := by
  rfl

/-- C2: the claim says `Object.CompletionAtPos` offers the missing attribute
names of the object constraint, sorted alphabetically, when the position is
inside the object but in none of its present attributes; the code is a stub
returning `nil`. At a concrete input with one missing attribute `a` the code
yields no candidates while the specified behavior yields `a`. -/
theorem C2_object_stub_returns_nil :
    Object.CompletionAtPos objC2 contextBackground ⟨2, 1, 9⟩ = []
      ∧ objectSpecMissingNames objC2 ⟨2, 1, 9⟩ = ["a"]
      ∧ (Object.CompletionAtPos objC2 contextBackground ⟨2, 1, 9⟩).map Candidate.label
          ≠ objectSpecMissingNames objC2 ⟨2, 1, 9⟩ := by
  refine ⟨rfl, rfl, by decide⟩

/-- C3: for a block label position whose label schema is not both
completable and a dependency key (here with any combination of the two flags
other than both true, and any dependent-body map), completion inside the
label of `myblock "" {\n}\n` returns an empty complete candidate list —
`is_complete = true` with zero candidates — not an error and not a
no-schema-applied result. -/
theorem C3_noncompletable_label (completable isDepKey : Bool)
    (deps : List (DependencyKeys × BodySchema))
    (h : ¬(completable = true ∧ isDepKey = true)) :
    completion_at (some (schemaC3 completable isDepKey deps)) tf fileC3 ⟨1, 10, 9⟩ =
      .ok ⟨[], true⟩ := by
  cases completable <;> cases isDepKey <;> first | rfl | exact absurd ⟨rfl, rfl⟩ h

/-- Witness for C3 at the concrete non-completable-label scenario: the label
is a dependency key but not completable, with two dependent bodies. -/
theorem C3_noncompletable_label_witness :
    completion_at (some (schemaC3 false true depsC3)) tf fileC3 ⟨1, 10, 9⟩ =
      .ok ⟨[], true⟩ :=
  C3_noncompletable_label false true depsC3 (by simp)

/-- C4: completing inside the completable dependency-key label of
`resource "" "" {}` yields the distinct dependency-key values for that label
index across all keys of the dependent-body map: concretely, with two keys
sharing the label value `azurerm_subnet` (differing only in an attribute
condition), exactly one `azurerm_subnet` candidate is returned; and in
general the candidate labels are duplicate-free and are exactly the key
values for label index 0. -/
theorem C4_duplicate_dep_keys_coalesced :
    completion_at (some (schemaC4 depsC4)) tf fileC4 ⟨1, 11, 10⟩ = .ok ⟨[azCandC4], true⟩
      ∧ ∀ (deps : List (DependencyKeys × BodySchema)) (c : Candidates),
          completion_at (some (schemaC4 deps)) tf fileC4 ⟨1, 11, 10⟩ = .ok c →
            (c.list.map Candidate.label).Nodup
              ∧ ∀ v, v ∈ c.list.map Candidate.label ↔ v ∈ labelValuesAt 0 deps := by
  constructor
  · rfl
  · intro deps c h
    have key : completion_at (some (schemaC4 deps)) tf fileC4 ⟨1, 11, 10⟩ =
        .ok ⟨sortCands ((labelValuesAt 0 deps).dedup.map
              (fun v => labelCandidate v ⟨tf, ⟨1, 11, 10⟩, ⟨1, 11, 10⟩⟩)), true⟩ := rfl
    rw [key] at h
    obtain rfl : (⟨sortCands ((labelValuesAt 0 deps).dedup.map
        (fun v => labelCandidate v ⟨tf, ⟨1, 11, 10⟩, ⟨1, 11, 10⟩⟩)), true⟩ : Candidates) = c :=
      Except.ok.inj h
    have hperm :
        (List.map Candidate.label (sortCands ((labelValuesAt 0 deps).dedup.map
          (fun v => labelCandidate v ⟨tf, ⟨1, 11, 10⟩, ⟨1, 11, 10⟩⟩)))).Perm
          (List.map Candidate.label ((labelValuesAt 0 deps).dedup.map
            (fun v => labelCandidate v ⟨tf, ⟨1, 11, 10⟩, ⟨1, 11, 10⟩⟩))) :=
      (List.perm_insertionSort candidateLe _).map Candidate.label
    have hmap :
        List.map Candidate.label ((labelValuesAt 0 deps).dedup.map
          (fun v => labelCandidate v ⟨tf, ⟨1, 11, 10⟩, ⟨1, 11, 10⟩⟩)) =
          (labelValuesAt 0 deps).dedup := by
      rw [List.map_map]
      exact List.map_id _
    rw [hmap] at hperm
    constructor
    · exact hperm.nodup_iff.mpr (List.nodup_dedup _)
    · intro v
      rw [hperm.mem_iff]
      exact List.mem_dedup
/-- Witness for C4's general part, applied at the duplicate-key map: the
candidate labels are duplicate-free and match the key values at index 0. -/
theorem C4_duplicate_dep_keys_coalesced_witness :
    ((⟨[azCandC4], true⟩ : Candidates).list.map Candidate.label).Nodup
      ∧ ∀ v, v ∈ (⟨[azCandC4], true⟩ : Candidates).list.map Candidate.label ↔
          v ∈ labelValuesAt 0 depsC4 :=
  C4_duplicate_dep_keys_coalesced.2 depsC4 ⟨[azCandC4], true⟩
    C4_duplicate_dep_keys_coalesced.1

/-- C5: completion at byte 13 (header whitespace), byte 14 (the opening
brace) and byte 17 (the closing brace) of `myblock "foo" {\n\n}\n` fails
with a positional error whose message is `position outside of "myblock"
body`, returning no candidates. -/
theorem C5_positions_outside_body :
    completion_at (some schemaC5) tf fileC5 ⟨1, 14, 13⟩ =
        .error (.positional "position outside of \"myblock\" body")
      ∧ completion_at (some schemaC5) tf fileC5 ⟨1, 15, 14⟩ =
        .error (.positional "position outside of \"myblock\" body")
      ∧ completion_at (some schemaC5) tf fileC5 ⟨3, 1, 17⟩ =
        .error (.positional "position outside of \"myblock\" body") :=
  ⟨rfl, rfl, rfl⟩

/-- C6: `completion_at` returns the unknown-file-format error exactly when
the file's body is not in the native dialect or is the sentinel empty-body
value; for native bodies it never produces that error (in the error cases no
candidates are returned, the result being an error value). -/
theorem C6_unknown_file_format_iff :
    ∀ (rootSchema : Option BodySchema) (fname : String) (file : File) (pos : Pos),
      completion_at rootSchema fname file pos = .error .unknownFileFormat ↔
        (file = .emptyBody ∨ file = .foreign) := by
  intro s fname file pos
  cases file with
  | emptyBody => simp [completion_at]
  | foreign => simp [completion_at]
  | native src body =>
    cases s with
    | none => simp [completion_at]
    | some schema =>
      constructor
      · intro h
        simp only [completion_at] at h
        rcases hw : bodyCompletion fname src (Body.depth body) schema pos body with e | c
        · rw [hw] at h
          cases e <;> simp [WalkError.toCompletionError] at h
        · rw [hw] at h
          simp at h
      · intro h
        rcases h with h | h <;> simp at h

/-- Witness for C6 at the sentinel empty-body file. -/
theorem C6_unknown_file_format_iff_witness :
    completion_at none tf File.emptyBody ⟨1, 1, 0⟩ = .error .unknownFileFormat :=
  (C6_unknown_file_format_iff none tf File.emptyBody ⟨1, 1, 0⟩).mpr (Or.inl rfl)

/-- C7: with a root schema knowing only the block type `resource` and the
3-byte file `res`, completion at byte 3 succeeds with exactly one candidate:
label `resource`, edit range from byte 0 to byte 3, new text `resource`, the
block snippet with named label placeholders, kind block, and
`is_complete = true`. -/
theorem C7_prefix_near_eof :
    completion_at (some schemaC7) tf fileC7 ⟨1, 4, 3⟩ =
      .ok ⟨[⟨"resource", "Block",
              ⟨⟨tf, ⟨1, 1, 0⟩, ⟨1, 4, 3⟩⟩, "resource",
                "resource \"$\x7b1:type\x7d\" \"$\x7b2:name\x7d\" \x7b\n  $\x7b3\x7d\n\x7d"⟩,
              .block, false⟩], true⟩ := by
  rfl

/-- C8: on the right-hand side of an attribute constrained to a scalar
literal type — the empty RHS after `=` of `num_attr = ` (byte 28) and the
inside of the typed string literal of `str_attr = ""` (byte 30) —
`completion_at` succeeds with a zero-length candidate list whose
`is_complete` flag is true, not an error. -/
theorem C8_scalar_rhs_complete_empty :
    completion_at (some schemaC8) tf fileC8a ⟨2, 13, 28⟩ = .ok ⟨[], true⟩
      ∧ completion_at (some schemaC8) tf fileC8b ⟨2, 15, 30⟩ = .ok ⟨[], true⟩ :=
  ⟨rfl, rfl⟩

/-- C9: every successful `completion_at` call returns a candidate list
sorted by label in non-decreasing, case-sensitive ascending order. -/
theorem C9_candidates_sorted :
    ∀ (rootSchema : Option BodySchema) (fname : String) (file : File) (pos : Pos)
      (c : Candidates),
      completion_at rootSchema fname file pos = .ok c → List.Sorted candidateLe c.list := by
  intro s fname file pos c h
  cases file with
  | emptyBody => simp [completion_at] at h
  | foreign => simp [completion_at] at h
  | native src body =>
    cases s with
    | none => simp [completion_at] at h
    | some schema =>
      simp only [completion_at] at h
      rcases hw : bodyCompletion fname src (Body.depth body) schema pos body with e | c'
      · rw [hw] at h
        simp at h
      · rw [hw] at h
        obtain rfl : (⟨sortCands c'.list, c'.isComplete⟩ : Candidates) = c := Except.ok.inj h
        exact List.sorted_insertionSort candidateLe _

/-- Witness for C9 at the concrete C1 scenario: the returned list is sorted. -/
theorem C9_candidates_sorted_witness :
    List.Sorted candidateLe [candC1one, candC1three, candC1two] :=
  C9_candidates_sorted (some schemaC1) tf fileC1 ⟨2, 1, 38⟩
    ⟨[candC1one, candC1three, candC1two], true⟩ rfl

/-- C10: for every context, looking up the active-count flag after
`WithActiveCount` yields true; it is false on the background context and on
any context where the key was never set; and `WithActiveCount` changes no
other observable context value. -/
theorem C10_active_count_context :
    (∀ ctx : GoContext, ActiveCountFromContext (WithActiveCount ctx) = true)
      ∧ ActiveCountFromContext contextBackground = false
      ∧ (∀ ctx : GoContext, contextValue ctx CtxKey.bodyActiveCountCtxKey = none →
          ActiveCountFromContext ctx = false)
      ∧ (∀ (ctx : GoContext) (k : CtxKey), k ≠ CtxKey.bodyActiveCountCtxKey →
          contextValue (WithActiveCount ctx) k = contextValue ctx k) := by
  refine ⟨fun ctx => ?_, rfl, fun ctx h => ?_, fun ctx k hk => ?_⟩
  · simp [ActiveCountFromContext, WithActiveCount, contextValue]
  · simp [ActiveCountFromContext, h]
  · simp [WithActiveCount, contextValue, Ne.symm hk]

/-- Witness for C10 at the background context and the other key defined in
context/context.go. -/
theorem C10_active_count_context_witness :
    ActiveCountFromContext (WithActiveCount contextBackground) = true
      ∧ contextValue (WithActiveCount contextBackground) CtxKey.bodyExtCtxKey =
          contextValue contextBackground CtxKey.bodyExtCtxKey :=
  ⟨C10_active_count_context.1 contextBackground,
   C10_active_count_context.2.2.2 contextBackground CtxKey.bodyExtCtxKey (by decide)⟩

end HclLang
